import Mathlib

/-!
Verification of the collision and movement subsystem of a 2D top-down
exploration game.  The Rust source (src/collision/map.rs, src/map/generate.rs,
src/player/systems.rs) is embedded shallowly: world coordinates (`f32` in the
source) become exact rationals `ℚ`, grid coordinates (`i32`) become `ℤ`,
array indices (`usize`) become `ℕ`, and the tile vector becomes `List TileType`.
Loops that only return early with `false` become `List.all`; loops that return
the first success become `List.find?`; the sub-step movement loop becomes
structural recursion on the step count.
-/

/-- Modelled from the spec: the `TileType` enumeration itself is declared in a
module of this repository that is not part of the provided sources (only its
uses appear, e.g. `super::TileType` in src/collision/map.rs).  The spec gives
the closed enumeration `Empty, Dirt, Grass, YellowGrass, Water, Shore, Tree,
Rock`. -/
inductive TileType where
  | Empty
  | Dirt
  | Grass
  | YellowGrass
  | Water
  | Shore
  | Tree
  | Rock
deriving DecidableEq, Repr

/-- Modelled from the spec: `TileType::is_walkable` is declared outside the
provided sources.  The spec fixes the static walkability flags:
`Water, Tree, Rock` are not walkable; all others (`Empty, Dirt, Grass,
YellowGrass, Shore`) are walkable. -/
def TileType.is_walkable (t : TileType) : Bool :=
  match t with
  | .Water | .Tree | .Rock => false
  | _ => true

/-- A 2D world-space vector, embedding Bevy's `Vec2` with exact rational
coordinates. -/
structure Vec2 where
  x : ℚ
  y : ℚ
deriving DecidableEq, Repr

instance : Add Vec2 := ⟨fun a b => ⟨a.x + b.x, a.y + b.y⟩⟩

instance : Sub Vec2 := ⟨fun a b => ⟨a.x - b.x, a.y - b.y⟩⟩

/-- Squared Euclidean norm.  The source compares `delta.length()` (a square
root) against constants; every such comparison is embedded by comparing the
squares, which is equivalent over nonnegative quantities. -/
def Vec2.normSq (v : Vec2) : ℚ := v.x * v.x + v.y * v.y

/-- The inclusive integer range `a..=b` of the source's `for` loops, as a
list. -/
def intRange (a b : ℤ) : List ℤ :=
  (List.range (b + 1 - a).toNat).map (fun (i : ℕ) => a + (i : ℤ))

theorem mem_intRange {a b x : ℤ} : x ∈ intRange a b ↔ a ≤ x ∧ x ≤ b := by
  constructor
  · intro hx
    rcases List.mem_map.mp hx with ⟨i, hi, hix⟩
    have hilt : i < (b + 1 - a).toNat := List.mem_range.mp hi
    omega
  · intro h
    refine List.mem_map.mpr ⟨(x - a).toNat, List.mem_range.mpr ?_, ?_⟩ <;> omega

/-- `Rat.floor` (the computable floor used throughout the embedding, so that
witnesses evaluate by `decide`) agrees with Mathlib's `Int.floor`. -/
theorem ratFloor_eq (q : ℚ) : q.floor = ⌊q⌋ := by
  rw [Rat.floor_def']
  exact Rat.floor_def.symm

/-- `Rat.ceil` agrees with Mathlib's `Int.ceil`. -/
theorem ratCeil_eq (q : ℚ) : q.ceil = ⌈q⌉ := by
  unfold Rat.ceil
  split
  · next h =>
    conv_rhs => rw [← Rat.coe_int_num_of_den_eq_one h]
    exact (Int.ceil_intCast q.num).symm
  · next h =>
    have hf : q.num / (q.den : ℤ) = ⌊q⌋ := Rat.floor_def.symm
    rw [hf]
    have hfr : Int.fract q ≠ 0 := by
      intro h0
      have hq : q = (⌊q⌋ : ℚ) := by
        have := Int.self_sub_floor q
        rw [h0] at this
        linarith
      have : q.den = 1 := by rw [hq]; exact Rat.den_intCast _
      exact h this
    have hc : (⌈q⌉ : ℚ) = q + 1 - Int.fract q := Int.ceil_eq_add_one_sub_fract hfr
    have hfr' : Int.fract q = q - (⌊q⌋ : ℚ) := (Int.self_sub_floor q).symm
    have : (⌈q⌉ : ℚ) = (⌊q⌋ : ℚ) + 1 := by rw [hc, hfr']; ring
    exact_mod_cast this.symm

/-- `CollisionMap` (src/collision/map.rs lines 6-14): the flattened
walkability grid with origin/size/scale metadata. -/
structure CollisionMap where
  tiles : List TileType
  width : ℤ
  height : ℤ
  tile_size : ℚ
  grid_origin_x : ℚ
  grid_origin_y : ℚ
deriving DecidableEq, Repr

namespace CollisionMap

/-- `CollisionMap::with_origin` (map.rs lines 18-28).  `(width * height) as
usize` is embedded as `(width * height).toNat`, which agrees with the cast for
the nonnegative dimensions the game constructs. -/
def with_origin (width height : ℤ) (tile_size origin_x origin_y : ℚ) :
    CollisionMap :=
  { tiles := List.replicate (width * height).toNat TileType.Empty
    width := width
    height := height
    tile_size := tile_size
    grid_origin_x := origin_x
    grid_origin_y := origin_y }

/-- `CollisionMap::xy_idx` (map.rs lines 31-33): `(y as usize * width as
usize) + x as usize`.  The `as usize` casts are embedded as `Int.toNat`, which
agrees with Rust for the nonnegative values guarded by `in_bounds`. -/
def xy_idx (m : CollisionMap) (x y : ℤ) : ℕ :=
  y.toNat * m.width.toNat + x.toNat

/-- `CollisionMap::in_bounds` (map.rs lines 36-38). -/
def in_bounds (m : CollisionMap) (x y : ℤ) : Bool :=
  decide (0 ≤ x ∧ x < m.width ∧ 0 ≤ y ∧ y < m.height)

/-- Direct read of `self.tiles[idx]` at grid position `(x, y)`.  Rust's panic
on an out-of-range index is embedded as the `Empty` default; all theorems that
rely on the read either assume `in_bounds` together with the length invariant
or go through the bounds-checked wrappers below, exactly as the source
does. -/
def tileAt (m : CollisionMap) (x y : ℤ) : TileType :=
  m.tiles.getD (m.xy_idx x y) TileType.Empty

/-- `CollisionMap::is_walkable` (map.rs lines 41-47). -/
def is_walkable (m : CollisionMap) (x y : ℤ) : Bool :=
  if m.in_bounds x y then (m.tileAt x y).is_walkable else false

/-- `CollisionMap::set_tile` (map.rs lines 50-55). -/
def set_tile (m : CollisionMap) (x y : ℤ) (tile_type : TileType) :
    CollisionMap :=
  if m.in_bounds x y then
    { m with tiles := m.tiles.set (m.xy_idx x y) tile_type }
  else
    m

/-- `CollisionMap::world_to_grid` (map.rs lines 58-62). -/
def world_to_grid (m : CollisionMap) (world_pos : Vec2) : ℤ × ℤ :=
  (((world_pos.x - m.grid_origin_x) / m.tile_size).floor,
   ((world_pos.y - m.grid_origin_y) / m.tile_size).floor)

/-- `CollisionMap::is_world_pos_walkable` (map.rs lines 65-68). -/
def is_world_pos_walkable (m : CollisionMap) (world_pos : Vec2) : Bool :=
  let grid_pos := m.world_to_grid world_pos
  m.is_walkable grid_pos.1 grid_pos.2

/-- `CollisionMap::is_world_pos_within_bounds` (map.rs lines 146-156). -/
def is_world_pos_within_bounds (m : CollisionMap) (world_pos : Vec2)
    (radius_world : ℚ) : Bool :=
  let left := m.grid_origin_x
  let right := m.grid_origin_x + m.width * m.tile_size
  let bottom := m.grid_origin_y
  let top := m.grid_origin_y + m.height * m.tile_size
  decide (world_pos.x - radius_world ≥ left
    ∧ world_pos.x + radius_world ≤ right
    ∧ world_pos.y - radius_world ≥ bottom
    ∧ world_pos.y + radius_world ≤ top)

/-- Rust's `f32::clamp(lo, hi)`: `min (max x lo) hi`. -/
def clampQ (x lo hi : ℚ) : ℚ := min (max x lo) hi

/-- `CollisionMap::circle_intersects_tile` (map.rs lines 158-171). -/
def circle_intersects_tile (m : CollisionMap) (center : Vec2) (radius : ℚ)
    (gx gy : ℤ) : Bool :=
  let minx := m.grid_origin_x + gx * m.tile_size
  let miny := m.grid_origin_y + gy * m.tile_size
  let maxx := minx + m.tile_size
  let maxy := miny + m.tile_size
  let cx := clampQ center.x minx maxx
  let cy := clampQ center.y miny maxy
  let dx := center.x - cx
  let dy := center.y - cy
  decide (dx * dx + dy * dy ≤ radius * radius)

/-- `CollisionMap::get_tile` (map.rs lines 173-180). -/
def get_tile (m : CollisionMap) (x y : ℤ) : Option TileType :=
  if m.in_bounds x y then some (m.tileAt x y) else none

/-- The per-category effective radius computed inside
`is_world_pos_clear_circle` (map.rs lines 92-96): `Shore` adds a
10%-of-cell-size buffer, `Tree`/`Rock` add a 5% buffer, every other category
keeps the radius unmodified. -/
def effective_radius (t : TileType) (radius_world tile_size : ℚ) : ℚ :=
  match t with
  | .Shore => radius_world + 0.1 * tile_size
  | .Tree | .Rock => radius_world + 0.05 * tile_size
  | _ => radius_world

/-- `CollisionMap::is_world_pos_clear_circle` (map.rs lines 71-106).  The
doubly nested `for` loop only ever exits early with `false`, so it is embedded
as `List.all` over the same inclusive coordinate ranges. -/
def is_world_pos_clear_circle (m : CollisionMap) (world_pos : Vec2)
    (radius_world : ℚ) : Bool :=
  if ¬ m.is_world_pos_within_bounds world_pos radius_world then false
  else if radius_world ≤ 0 then m.is_world_pos_walkable world_pos
  else
    let min_gx := ((world_pos.x - radius_world - m.grid_origin_x) / m.tile_size).floor
    let max_gx := ((world_pos.x + radius_world - m.grid_origin_x) / m.tile_size).floor
    let min_gy := ((world_pos.y - radius_world - m.grid_origin_y) / m.tile_size).floor
    let max_gy := ((world_pos.y + radius_world - m.grid_origin_y) / m.tile_size).floor
    (intRange min_gy max_gy).all fun gy =>
      (intRange min_gx max_gx).all fun gx =>
        if ¬ m.in_bounds gx gy then false
        else
          match m.get_tile gx gy with
          | some t =>
            if ¬ t.is_walkable then
              if m.circle_intersects_tile world_pos
                  (effective_radius t radius_world m.tile_size) gx gy then
                false
              else true
            else true
          | none => true

end CollisionMap

/-- Smallest natural number whose square is at least `k`, i.e. `⌈√k⌉`. -/
def natCeilSqrt (k : ℕ) : ℕ :=
  if Nat.sqrt k * Nat.sqrt k = k then Nat.sqrt k else Nat.sqrt k + 1

theorem natCeilSqrt_sq_ge (k : ℕ) : k ≤ natCeilSqrt k * natCeilSqrt k := by
  unfold natCeilSqrt
  split
  · omega
  · have h := Nat.lt_succ_sqrt k
    simpa [Nat.succ_eq_add_one] using h.le

namespace CollisionMap

/-- The sub-step count of `try_move_circle` (map.rs lines 117-118):
`(delta_len / max_step).ceil().max(1.0)` with `max_step = tile_size * 0.25`.
In exact arithmetic, for an integer `n ≥ 0`, `n ≥ |delta| / max_step` iff
`n² · max_step² ≥ |delta|²`, so the ceiling of `|delta| / max_step` is the
smallest `n` with `n² ≥ |delta|² / max_step²`, i.e.
`natCeilSqrt ⌈normSq delta / max_step²⌉`; this avoids the irrational square
root of `delta.length()`. -/
def stepCount (m : CollisionMap) (delta : Vec2) : ℕ :=
  let max_step := m.tile_size * 0.25
  max 1 (natCeilSqrt (delta.normSq / (max_step * max_step)).ceil.toNat)

/-- The sub-step loop of `try_move_circle` (map.rs lines 121-142), as
structural recursion on the remaining step count.  The `break` of the source
is the final `else` branch that discards the remaining steps. -/
def moveLoop (m : CollisionMap) (radius_world : ℚ) (step_v : Vec2) :
    ℕ → Vec2 → Vec2
  | 0, p => p
  | Nat.succ n, p =>
    let candidate : Vec2 := p + step_v
    if m.is_world_pos_clear_circle candidate radius_world then
      moveLoop m radius_world step_v n candidate
    else if m.is_world_pos_clear_circle ⟨candidate.x, p.y⟩ radius_world then
      moveLoop m radius_world step_v n ⟨candidate.x, p.y⟩
    else if m.is_world_pos_clear_circle ⟨p.x, candidate.y⟩ radius_world then
      moveLoop m radius_world step_v n ⟨p.x, candidate.y⟩
    else p

/-- `CollisionMap::try_move_circle` (map.rs lines 109-144).  The early return
`delta_len < 0.001` is embedded by the equivalent comparison of squares
`normSq delta < 0.000001`. -/
def try_move_circle (m : CollisionMap) (start desired_end : Vec2)
    (radius_world : ℚ) : Vec2 :=
  let delta := desired_end - start
  if delta.normSq < 0.000001 then start
  else
    let steps := m.stepCount delta
    let step_v : Vec2 := ⟨delta.x / (steps : ℚ), delta.y / (steps : ℚ)⟩
    moveLoop m radius_world step_v steps start

end CollisionMap

/-! ## Spawn-point search (src/player/systems.rs lines 76-144) -/

/-- `feet_offset` in `find_walkable_spawn_position`: half the scaled sprite
height, `TILE_SIZE(64) * 1.2 / 2 = 38.4`. -/
def feet_offset : ℚ := 38.4

/-- `collider_radius` (player/systems.rs line 85): 16 world units. -/
def collider_radius : ℚ := 16

/-- World position of the center of grid cell `(x, y)`:
`grid_origin + (coord + 0.5) * tile_size` (player/systems.rs lines 92-93). -/
def cellCenterWorld (m : CollisionMap) (x y : ℤ) : Vec2 :=
  ⟨m.grid_origin_x + ((x : ℚ) + 0.5) * m.tile_size,
   m.grid_origin_y + ((y : ℚ) + 0.5) * m.tile_size⟩

/-- The feet position probed for clearance: the sprite center shifted down by
`feet_offset` (player/systems.rs lines 96, 116, 134). -/
def feetOf (center : Vec2) : Vec2 := ⟨center.x, center.y - feet_offset⟩

/-- The in-bounds cells probed by the expanding-ring loop of
`find_walkable_spawn_position` (player/systems.rs lines 102-124), in probe
order: ring radius `1..=min(width,height)/2`, `dx` outer, `dy` inner, keeping
only ring-perimeter cells (`|dx| = radius` or `|dy| = radius`) that are in
bounds. -/
def spawnRingCandidates (m : CollisionMap) : List (ℤ × ℤ) :=
  let cx := m.width / 2
  let cy := m.height / 2
  (intRange 1 (min m.width m.height / 2)).flatMap fun radius =>
    (intRange (-radius) radius).flatMap fun dx =>
      (intRange (-radius) radius).flatMap fun dy =>
        if |dx| ≠ radius ∧ |dy| ≠ radius then []
        else
          let x := cx + dx
          let y := cy + dy
          if m.in_bounds x y then [(x, y)] else []

/-- The 100 random fallback cells (player/systems.rs lines 127-139).  The
source draws `rng.gen_range(0..width)` and `rng.gen_range(0..height)`; the
random number generator is modelled as an arbitrary stream `rng` of pairs of
naturals, reduced modulo the grid dimensions to land in the same ranges
`gen_range` guarantees. -/
def randomCandidates (m : CollisionMap) (rng : ℕ → ℕ × ℕ) : List (ℤ × ℤ) :=
  (List.range 100).map fun i =>
    (((rng i).1 % m.width.toNat : ℕ) , ((rng i).2 % m.height.toNat : ℕ))

/-- `find_walkable_spawn_position` (player/systems.rs lines 76-144): probe the
grid-center cell first, then the expanding rings, then the random fallback
cells, returning the sprite-center world position of the first probe whose
feet circle is clear; if every probe fails, return the grid-center position
unconditionally.  The loops return at the first success, so they are embedded
as `List.find?` over the probe order.  The returned `Vec3`'s constant z
component (`PLAYER_Z`) is dropped. -/
def find_walkable_spawn_position (m : CollisionMap) (rng : ℕ → ℕ × ℕ) : Vec2 :=
  let cx := m.width / 2
  let cy := m.height / 2
  let world_center := cellCenterWorld m cx cy
  if m.is_world_pos_clear_circle (feetOf world_center) collider_radius then
    world_center
  else
    match (spawnRingCandidates m ++ randomCandidates m rng).find? (fun p =>
        m.is_world_pos_clear_circle (feetOf (cellCenterWorld m p.1 p.2))
          collider_radius) with
    | some p => cellCenterWorld m p.1 p.2
    | none => world_center

/-! ## Grid builder (src/map/generate.rs lines 91-227 and 306-353) -/

/-- One spawned tile instance as seen by `build_collision_map`: a world
position (`transform.translation`) and the `TileTypeMarker`'s category. -/
structure TileObservation where
  wx : ℚ
  wy : ℚ
  wz : ℚ
  tile : TileType
deriving DecidableEq, Repr

/-- The grid footprint of an observation (generate.rs lines 119-120, 162-163):
`floor((world - grid_origin) / TILE_SIZE)` on each axis. -/
def obsGrid (tile_size ox oy : ℚ) (o : TileObservation) : ℤ × ℤ :=
  (((o.wx - ox) / tile_size).floor, ((o.wy - oy) / tile_size).floor)

/-- Pointwise insertion into the layer tracker, embedding
`HashMap::insert`. -/
def trackerInsert (f : ℤ × ℤ → Option (TileType × ℚ)) (k : ℤ × ℤ)
    (v : TileType × ℚ) : ℤ × ℤ → Option (TileType × ℚ) :=
  fun q => if q = k then some v else f q

/-- One iteration of the layer-tracking scan (generate.rs lines 156-179): keep
the incoming observation only if the footprint is unseen or the stored z is
strictly smaller (`world_z <= existing_z` is skipped). -/
def trackerStep (tile_size ox oy : ℚ) (acc : ℤ × ℤ → Option (TileType × ℚ))
    (o : TileObservation) : ℤ × ℤ → Option (TileType × ℚ) :=
  let key := obsGrid tile_size ox oy o
  match acc key with
  | some tz => if o.wz ≤ tz.2 then acc else trackerInsert acc key (o.tile, o.wz)
  | none => trackerInsert acc key (o.tile, o.wz)

/-- The `layer_tracker` HashMap after the scan over all observations
(generate.rs lines 152-179), embedded as its lookup function. -/
def layer_tracker (tile_size ox oy : ℚ) (obs : List TileObservation) :
    ℤ × ℤ → Option (TileType × ℚ) :=
  obs.foldl (trackerStep tile_size ox oy) (fun _ => none)

/-- Minimum of a list of integers, as folded by the bounds scan (generate.rs
lines 111-126).  The source starts the fold from `i32::MAX`; for the nonempty
lists the builder runs on this equals folding from the first element. -/
def minList (l : List ℤ) : ℤ :=
  match l with
  | [] => 0
  | a :: r => r.foldl min a

/-- Maximum of a list of integers (see `minList`; the source starts from
`i32::MIN`). -/
def maxList (l : List ℤ) : ℤ :=
  match l with
  | [] => 0
  | a :: r => r.foldl max a

/-- The footprint x coordinates of all observations. -/
def obsGxs (tile_size ox oy : ℚ) (obs : List TileObservation) : List ℤ :=
  obs.map fun o => (obsGrid tile_size ox oy o).1

/-- The footprint y coordinates of all observations. -/
def obsGys (tile_size ox oy : ℚ) (obs : List TileObservation) : List ℤ :=
  obs.map fun o => (obsGrid tile_size ox oy o).2

/-- The collision map as populated by `build_collision_map` up to generate.rs
line 199: dimensions from the actual footprint bounding box, every cell
initialized `Empty` by `Map::with_origin`, then one `set_tile` at local
coordinates `(grid - min)` per retained tracker entry.  Each distinct key is
written exactly once (`layer_tracker` keys are unique), so the resulting
array is the pointwise image of the tracker regardless of `HashMap` iteration
order, which is how it is materialized here. -/
def flattenedGrid (tile_size ox oy : ℚ) (obs : List TileObservation) :
    CollisionMap :=
  let tr := layer_tracker tile_size ox oy obs
  let mnx := minList (obsGxs tile_size ox oy obs)
  let mxx := maxList (obsGxs tile_size ox oy obs)
  let mny := minList (obsGys tile_size ox oy obs)
  let mxy := maxList (obsGys tile_size ox oy obs)
  let w := mxx - mnx + 1
  let h := mxy - mny + 1
  { tiles := (List.range (w * h).toNat).map fun i =>
      match tr (mnx + ((i % w.toNat : ℕ) : ℤ), mny + ((i / w.toNat : ℕ) : ℤ)) with
      | some tz => tz.1
      | none => TileType.Empty
    width := w
    height := h
    tile_size := tile_size
    grid_origin_x := ox
    grid_origin_y := oy }

/-- The 8-connected neighborhood inspected by the shoreline pass
(generate.rs lines 320-329), in source order. -/
def waterNeighbors (x y : ℤ) : List (ℤ × ℤ) :=
  [(x - 1, y), (x + 1, y), (x, y - 1), (x, y + 1),
   (x - 1, y - 1), (x + 1, y - 1), (x - 1, y + 1), (x + 1, y + 1)]

/-- The `shores_to_create` list (generate.rs lines 307-342): every grid
position holding `Water` with at least one in-bounds walkable 8-neighbor,
collected over the original grid before any mutation, in scan order
(`y` outer, `x` inner). -/
def shoresToCreate (m : CollisionMap) : List (ℤ × ℤ) :=
  (intRange 0 (m.height - 1)).flatMap fun y =>
    ((intRange 0 (m.width - 1)).filter fun x =>
      decide (m.tileAt x y = TileType.Water) &&
        (waterNeighbors x y).any fun p =>
          m.in_bounds p.1 p.2 && (m.tileAt p.1 p.2).is_walkable).map fun x =>
      (x, y)

/-- `convert_water_edges_to_shore` (generate.rs lines 306-353): reclassify
every collected position to `Shore`. -/
def convert_water_edges_to_shore (m : CollisionMap) : CollisionMap :=
  (shoresToCreate m).foldl (fun mm p => mm.set_tile p.1 p.2 TileType.Shore) m

/-- The grid produced by one successful run of `build_collision_map`
(generate.rs lines 91-227): `none` when no tile observations exist yet
("not ready", the system returns without building), otherwise the flattened
grid followed by the shoreline pass. -/
def build_collision_map (tile_size ox oy : ℚ) (obs : List TileObservation) :
    Option CollisionMap :=
  match obs with
  | [] => none
  | _ :: _ => some (convert_water_edges_to_shore (flattenedGrid tile_size ox oy obs))

/-- The state touched by the `build_collision_map` system: the
`CollisionMapBuilt` flag and the optional `CollisionMap` resource. -/
structure BuildState where
  built : Bool
  resource : Option CollisionMap
deriving DecidableEq, Repr

/-- One tick of the `build_collision_map` system (generate.rs lines 91-227):
skip if already built; skip (unchanged state, retry next tick) if there are
no tile observations; otherwise insert the built map and set the flag. -/
def build_collision_map_system (tile_size ox oy : ℚ)
    (obs : List TileObservation) (s : BuildState) : BuildState :=
  if s.built then s
  else
    match build_collision_map tile_size ox oy obs with
    | none => s
    | some mp => { built := true, resource := some mp }

/-! ## Basic grid lemmas -/

namespace CollisionMap

theorem in_bounds_iff {m : CollisionMap} {x y : ℤ} :
    m.in_bounds x y = true ↔ 0 ≤ x ∧ x < m.width ∧ 0 ≤ y ∧ y < m.height := by
  simp [in_bounds]

theorem set_tile_tiles_length (m : CollisionMap) (x y : ℤ) (t : TileType) :
    (m.set_tile x y t).tiles.length = m.tiles.length := by
  unfold set_tile
  split <;> simp

theorem set_tile_width (m : CollisionMap) (x y : ℤ) (t : TileType) :
    (m.set_tile x y t).width = m.width := by
  unfold set_tile
  split <;> rfl

theorem set_tile_height (m : CollisionMap) (x y : ℤ) (t : TileType) :
    (m.set_tile x y t).height = m.height := by
  unfold set_tile
  split <;> rfl

theorem set_tile_in_bounds (m : CollisionMap) (x y : ℤ) (t : TileType)
    (a b : ℤ) : (m.set_tile x y t).in_bounds a b = m.in_bounds a b := by
  unfold set_tile
  split <;> rfl

theorem toNat_mul_of_nonneg {a b : ℤ} (ha : 0 ≤ a) (hb : 0 ≤ b) :
    (a * b).toNat = a.toNat * b.toNat := by
  have h1 : ((a * b).toNat : ℤ) = a * b :=
    Int.toNat_of_nonneg (mul_nonneg ha hb)
  have h2 : (a.toNat : ℤ) = a := Int.toNat_of_nonneg ha
  have h3 : (b.toNat : ℤ) = b := Int.toNat_of_nonneg hb
  have : ((a * b).toNat : ℤ) = ((a.toNat * b.toNat : ℕ) : ℤ) := by
    rw [h1]
    push_cast
    rw [h2, h3]
  exact_mod_cast this

theorem xy_idx_lt_of_in_bounds {m : CollisionMap} {x y : ℤ}
    (hinv : m.tiles.length = (m.width * m.height).toNat)
    (hin : m.in_bounds x y = true) : m.xy_idx x y < m.tiles.length := by
  rcases in_bounds_iff.mp hin with ⟨hx0, hxw, hy0, hyh⟩
  rw [hinv, toNat_mul_of_nonneg (by omega) (by omega)]
  unfold xy_idx
  have hx : x.toNat < m.width.toNat := by omega
  have hy : y.toNat < m.height.toNat := by omega
  calc y.toNat * m.width.toNat + x.toNat
      < y.toNat * m.width.toNat + m.width.toNat := by omega
    _ = (y.toNat + 1) * m.width.toNat := by ring
    _ ≤ m.height.toNat * m.width.toNat :=
        Nat.mul_le_mul_right m.width.toNat (by omega)
    _ = m.width.toNat * m.height.toNat := Nat.mul_comm _ _

theorem xy_idx_inj {m : CollisionMap} {x y a b : ℤ}
    (h1 : m.in_bounds x y = true) (h2 : m.in_bounds a b = true)
    (heq : m.xy_idx x y = m.xy_idx a b) : x = a ∧ y = b := by
  rcases in_bounds_iff.mp h1 with ⟨hx0, hxw, hy0, hyh⟩
  rcases in_bounds_iff.mp h2 with ⟨ha0, haw, hb0, hbh⟩
  unfold xy_idx at heq
  have hW : 0 < m.width.toNat := by omega
  have hxr : x.toNat < m.width.toNat := by omega
  have har : a.toNat < m.width.toNat := by omega
  have hmod : x.toNat = a.toNat := by
    have hm1 : (y.toNat * m.width.toNat + x.toNat) % m.width.toNat = x.toNat := by
      rw [Nat.mul_comm, Nat.mul_add_mod]
      exact Nat.mod_eq_of_lt hxr
    have hm2 : (b.toNat * m.width.toNat + a.toNat) % m.width.toNat = a.toNat := by
      rw [Nat.mul_comm, Nat.mul_add_mod]
      exact Nat.mod_eq_of_lt har
    rw [← hm1, heq, hm2]
  have hdiv : y.toNat = b.toNat := by
    rw [hmod] at heq
    have hmul : y.toNat * m.width.toNat = b.toNat * m.width.toNat :=
      Nat.add_right_cancel heq
    exact Nat.eq_of_mul_eq_mul_right hW hmul
  omega

end CollisionMap

/-! ## Claim C9: construction invariant and bounds-checked access -/

/-- **C9**: `with_origin` establishes `tiles.length = width * height`;
`set_tile` preserves the tile-vector length; every out-of-bounds access is
rejected before indexing (`is_walkable` returns `false`, `get_tile` returns
`none`, `set_tile` leaves the grid entirely unchanged); and under the length
invariant an in-bounds access index is always in range of the tile vector. -/
theorem C9_length_invariant_and_bounds_checked
    (w h : ℤ) (T ox oy : ℚ) (m : CollisionMap) (x y : ℤ) (t : TileType) :
    (CollisionMap.with_origin w h T ox oy).tiles.length = (w * h).toNat
    ∧ (m.set_tile x y t).tiles.length = m.tiles.length
    ∧ (m.in_bounds x y = false →
        m.is_walkable x y = false ∧ m.get_tile x y = none
          ∧ m.set_tile x y t = m)
    ∧ (m.tiles.length = (m.width * m.height).toNat →
        m.in_bounds x y = true → m.xy_idx x y < m.tiles.length) := by
  refine ⟨by simp [CollisionMap.with_origin],
    CollisionMap.set_tile_tiles_length m x y t, ?_,
    fun hinv hin => CollisionMap.xy_idx_lt_of_in_bounds hinv hin⟩
  intro hob
  refine ⟨?_, ?_, ?_⟩
  · unfold CollisionMap.is_walkable
    rw [hob]
    simp
  · unfold CollisionMap.get_tile
    rw [hob]
    simp
  · unfold CollisionMap.set_tile
    rw [hob]
    simp

/-- A concrete 3×2 grid used to evaluate the access-checking claims. -/
def gridC9 : CollisionMap :=
  { tiles := [TileType.Grass, TileType.Water, TileType.Grass,
              TileType.Dirt, TileType.Tree, TileType.Shore]
    width := 3, height := 2, tile_size := 64
    grid_origin_x := 0, grid_origin_y := 0 }

theorem C9_witness :
    gridC9.in_bounds 3 1 = false
    ∧ (gridC9.is_walkable 3 1 = false ∧ gridC9.get_tile 3 1 = none
        ∧ gridC9.set_tile 3 1 TileType.Rock = gridC9)
    ∧ gridC9.tiles.length = (gridC9.width * gridC9.height).toNat
    ∧ gridC9.in_bounds 2 1 = true
    ∧ gridC9.xy_idx 2 1 < gridC9.tiles.length := by
  have hA := C9_length_invariant_and_bounds_checked 3 2 64 0 0 gridC9 3 1
    TileType.Rock
  have hB := C9_length_invariant_and_bounds_checked 3 2 64 0 0 gridC9 2 1
    TileType.Rock
  have hib : gridC9.in_bounds 3 1 = false := by decide
  exact ⟨hib, hA.2.2.1 hib, by decide, by decide,
    hB.2.2.2 (by decide) (by decide)⟩

/-! ## Claim C8: empty observation set defers the build -/

/-- **C8**: with an empty observation set the build system leaves the state
(flag and resource) entirely unchanged, and the builder produces no grid at
all rather than a zero-sized one. -/
theorem C8_empty_observations_leave_state_unchanged (tile_size ox oy : ℚ)
    (s : BuildState) :
    build_collision_map_system tile_size ox oy [] s = s
    ∧ build_collision_map tile_size ox oy [] = none := by
  constructor
  · unfold build_collision_map_system
    split
    · rfl
    · rfl
  · rfl

/-! ## Claim C3: per-category buffer easing -/

/-- A 2×1 grid whose second cell is `Shore`, geometry otherwise identical to
`waterSide`. -/
def shoreSide : CollisionMap :=
  { tiles := [TileType.Grass, TileType.Shore], width := 2, height := 1
    tile_size := 64, grid_origin_x := 0, grid_origin_y := 0 }

/-- A 2×1 grid whose second cell is `Water`, geometry otherwise identical to
`shoreSide`. -/
def waterSide : CollisionMap :=
  { tiles := [TileType.Grass, TileType.Water], width := 2, height := 1
    tile_size := 64, grid_origin_x := 0, grid_origin_y := 0 }

/-- **C3**: for identical geometry, a query adjacent to a `Shore` cell is
clear at a radius at which the otherwise-identical query adjacent to a `Water`
cell is rejected (witnessed at radius 30 against the cell-identical pair
`shoreSide`/`waterSide`), and the per-category buffers are ordered
`Shore` (10% of cell size) > `Tree`/`Rock` (5% of cell size) > the strict
categories, whose radius is unmodified. -/
theorem C3_monotone_buffer_easing :
    (shoreSide.is_world_pos_clear_circle ⟨40, 32⟩ 30 = true
      ∧ waterSide.is_world_pos_clear_circle ⟨40, 32⟩ 30 = false)
    ∧ (∀ r T : ℚ, 0 < T →
        CollisionMap.effective_radius TileType.Tree r T < CollisionMap.effective_radius TileType.Shore r T
        ∧ CollisionMap.effective_radius TileType.Rock r T = CollisionMap.effective_radius TileType.Tree r T
        ∧ CollisionMap.effective_radius TileType.Water r T < CollisionMap.effective_radius TileType.Tree r T
        ∧ CollisionMap.effective_radius TileType.Water r T = r
        ∧ CollisionMap.effective_radius TileType.Shore r T = r + 0.1 * T
        ∧ CollisionMap.effective_radius TileType.Tree r T = r + 0.05 * T) := by
  refine ⟨⟨by with_unfolding_all rfl, by with_unfolding_all rfl⟩, ?_⟩
  intro r T hT
  unfold CollisionMap.effective_radius
  norm_num
  constructor
  · linarith
  · linarith

theorem C3_witness :
    (0 : ℚ) < 64
    ∧ CollisionMap.effective_radius TileType.Tree 16 64 < CollisionMap.effective_radius TileType.Shore 16 64 :=
  ⟨by norm_num, (C3_monotone_buffer_easing.2 16 64 (by norm_num)).1⟩

/-! ## Claim C6: fail-closed bounds handling -/

/-- **C6**: for every positive radius, a query whose bounding square exits the
grid's world-space extent is rejected, and a query whose candidate-cell scan
range contains any out-of-bounds cell is likewise rejected: out-of-bounds is
always resolved as blocked. -/
theorem C6_fail_closed_bounds (m : CollisionMap) (pos : Vec2) (r : ℚ)
    (hr : 0 < r) :
    (m.is_world_pos_within_bounds pos r = false →
      m.is_world_pos_clear_circle pos r = false)
    ∧ (∀ gx gy : ℤ,
        ((pos.x - r - m.grid_origin_x) / m.tile_size).floor ≤ gx →
        gx ≤ ((pos.x + r - m.grid_origin_x) / m.tile_size).floor →
        ((pos.y - r - m.grid_origin_y) / m.tile_size).floor ≤ gy →
        gy ≤ ((pos.y + r - m.grid_origin_y) / m.tile_size).floor →
        m.in_bounds gx gy = false →
        m.is_world_pos_clear_circle pos r = false) := by
  constructor
  · intro hw
    simp [CollisionMap.is_world_pos_clear_circle, hw]
  · intro gx gy h1 h2 h3 h4 hob
    by_cases hw : m.is_world_pos_within_bounds pos r = true
    · unfold CollisionMap.is_world_pos_clear_circle
      rw [if_neg (by simp [hw]), if_neg (by simp [not_le.mpr hr])]
      rw [List.all_eq_false]
      refine ⟨gy, mem_intRange.mpr ⟨h3, h4⟩, ?_⟩
      rw [Bool.not_eq_true, List.all_eq_false]
      refine ⟨gx, mem_intRange.mpr ⟨h1, h2⟩, ?_⟩
      simp [hob]
    · have hwf : m.is_world_pos_within_bounds pos r = false :=
        Bool.eq_false_iff.mpr hw
      simp [CollisionMap.is_world_pos_clear_circle, hwf]

/-! ## Claim C7: nonpositive radius degenerates to the point query -/

/-- **C7**: whenever `radius ≤ 0` (with a positive cell size), the circle
query returns exactly the single-point walkability test: inside the relaxed
bounding check it falls through to `is_world_pos_walkable`, and whenever the
relaxed bounding check fails the probed point is itself out of bounds, so both
sides are `false`. -/
theorem C7_nonpositive_radius_degenerates (m : CollisionMap) (pos : Vec2)
    (r : ℚ) (hr : r ≤ 0) (hT : 0 < m.tile_size) :
    m.is_world_pos_clear_circle pos r = m.is_world_pos_walkable pos := by
  by_cases hw : m.is_world_pos_within_bounds pos r = true
  · unfold CollisionMap.is_world_pos_clear_circle
    rw [if_neg (by simp [hw]), if_pos hr]
  · have hwf : m.is_world_pos_within_bounds pos r = false :=
      Bool.eq_false_iff.mpr hw
    have hclear : m.is_world_pos_clear_circle pos r = false := by
      simp [CollisionMap.is_world_pos_clear_circle, hwf]
    rw [hclear]
    symm
    unfold CollisionMap.is_world_pos_within_bounds at hwf
    rw [decide_eq_false_iff_not] at hwf
    push_neg at hwf
    unfold CollisionMap.is_world_pos_walkable CollisionMap.world_to_grid
    suffices hob : m.in_bounds ((pos.x - m.grid_origin_x) / m.tile_size).floor
        ((pos.y - m.grid_origin_y) / m.tile_size).floor = false by
      simp [CollisionMap.is_walkable, hob]
    rw [Bool.eq_false_iff]
    intro hc
    rcases CollisionMap.in_bounds_iff.mp hc with ⟨hx0, hxw, hy0, hyh⟩
    rw [ratFloor_eq] at hx0 hxw hy0 hyh
    rcases lt_or_le (pos.x - r) m.grid_origin_x with h | h
    · have hx : pos.x - m.grid_origin_x < 0 := by linarith
      have : ⌊(pos.x - m.grid_origin_x) / m.tile_size⌋ < 0 :=
        Int.floor_lt.mpr (by
          exact_mod_cast div_neg_of_neg_of_pos hx hT)
      omega
    rcases lt_or_le (m.grid_origin_x + m.width * m.tile_size)
        (pos.x + r) with h2 | h2
    · have hx : m.width * m.tile_size ≤ pos.x - m.grid_origin_x := by linarith
      have : (m.width : ℤ) ≤ ⌊(pos.x - m.grid_origin_x) / m.tile_size⌋ :=
        Int.le_floor.mpr ((le_div_iff₀ hT).mpr (by linarith))
      omega
    rcases lt_or_le (pos.y - r) m.grid_origin_y with h3 | h3
    · have hy : pos.y - m.grid_origin_y < 0 := by linarith
      have : ⌊(pos.y - m.grid_origin_y) / m.tile_size⌋ < 0 :=
        Int.floor_lt.mpr (by
          exact_mod_cast div_neg_of_neg_of_pos hy hT)
      omega
    rcases lt_or_le (m.grid_origin_y + m.height * m.tile_size)
        (pos.y + r) with h4 | h4
    · have hy : m.height * m.tile_size ≤ pos.y - m.grid_origin_y := by linarith
      have : (m.height : ℤ) ≤ ⌊(pos.y - m.grid_origin_y) / m.tile_size⌋ :=
        Int.le_floor.mpr ((le_div_iff₀ hT).mpr (by linarith))
      omega
    exact absurd h4 (not_le.mpr (hwf h h2 h3))

theorem C6_witness :
    ((0 : ℚ) < 40 ∧ gridC9.is_world_pos_within_bounds ⟨32, 32⟩ 40 = false
      ∧ gridC9.is_world_pos_clear_circle ⟨32, 32⟩ 40 = false)
    ∧ ((0 : ℚ) < 22 ∧ gridC9.in_bounds 3 0 = false
      ∧ gridC9.is_world_pos_clear_circle ⟨170, 32⟩ 22 = false) := by
  constructor
  · refine ⟨by norm_num, by with_unfolding_all rfl, ?_⟩
    exact (C6_fail_closed_bounds gridC9 ⟨32, 32⟩ 40 (by norm_num)).1
      (by with_unfolding_all rfl)
  · refine ⟨by norm_num, by decide, ?_⟩
    exact (C6_fail_closed_bounds gridC9 ⟨170, 32⟩ 22 (by norm_num)).2 3 0
      (of_decide_eq_true (by with_unfolding_all rfl))
      (of_decide_eq_true (by with_unfolding_all rfl))
      (of_decide_eq_true (by with_unfolding_all rfl))
      (of_decide_eq_true (by with_unfolding_all rfl))
      (by decide)

theorem C7_witness :
    ((-1 : ℚ) ≤ 0 ∧ (0 : ℚ) < gridC9.tile_size)
    ∧ gridC9.is_world_pos_clear_circle ⟨32, 32⟩ (-1)
        = gridC9.is_world_pos_walkable ⟨32, 32⟩
    ∧ gridC9.is_world_pos_walkable ⟨32, 32⟩ = true := by
  refine ⟨⟨by norm_num, by norm_num [gridC9]⟩, ?_, by with_unfolding_all rfl⟩
  exact C7_nonpositive_radius_degenerates gridC9 ⟨32, 32⟩ (-1) (by norm_num)
    (by norm_num [gridC9])

/-! ## Claim C4: the shoreline pass -/

theorem tileAt_set_tile {m : CollisionMap} {a b x y : ℤ}
    (hinv : m.tiles.length = (m.width * m.height).toNat)
    (ha : m.in_bounds a b = true) (hx : m.in_bounds x y = true)
    (t : TileType) :
    (m.set_tile a b t).tileAt x y
      = if a = x ∧ b = y then t else m.tileAt x y := by
  unfold CollisionMap.set_tile
  simp only [ha, if_true]
  unfold CollisionMap.tileAt
  by_cases h : a = x ∧ b = y
  · rcases h with ⟨rfl, rfl⟩
    simp only [and_self, if_true]
    have hlt : m.xy_idx a b < m.tiles.length :=
      CollisionMap.xy_idx_lt_of_in_bounds hinv ha
    simp [CollisionMap.xy_idx, List.getD_eq_getElem?_getD,
      List.getElem?_set_self (by simpa [CollisionMap.xy_idx] using hlt)]
  · rw [if_neg h]
    have hne : m.xy_idx a b ≠ m.xy_idx x y := by
      intro hidx
      exact h ⟨(CollisionMap.xy_idx_inj ha hx hidx).1,
        (CollisionMap.xy_idx_inj ha hx hidx).2⟩
    simp [CollisionMap.xy_idx, List.getD_eq_getElem?_getD,
      List.getElem?_set_ne (by simpa [CollisionMap.xy_idx] using hne)]

theorem tileAt_foldl_set_shore (L : List (ℤ × ℤ)) (m : CollisionMap)
    (x y : ℤ) (hinv : m.tiles.length = (m.width * m.height).toNat)
    (hL : ∀ p ∈ L, m.in_bounds p.1 p.2 = true)
    (hx : m.in_bounds x y = true) :
    (L.foldl (fun mm p => mm.set_tile p.1 p.2 TileType.Shore) m).tileAt x y
      = if (x, y) ∈ L then TileType.Shore else m.tileAt x y := by
  induction L generalizing m with
  | nil => simp
  | cons p rest ih =>
    simp only [List.foldl_cons]
    have hinv' : (m.set_tile p.1 p.2 TileType.Shore).tiles.length
        = ((m.set_tile p.1 p.2 TileType.Shore).width
          * (m.set_tile p.1 p.2 TileType.Shore).height).toNat := by
      rw [CollisionMap.set_tile_tiles_length, CollisionMap.set_tile_width,
        CollisionMap.set_tile_height]
      exact hinv
    have hL' : ∀ q ∈ rest,
        (m.set_tile p.1 p.2 TileType.Shore).in_bounds q.1 q.2 = true := by
      intro q hq
      rw [CollisionMap.set_tile_in_bounds]
      exact hL q (List.mem_cons_of_mem _ hq)
    have hx' : (m.set_tile p.1 p.2 TileType.Shore).in_bounds x y = true := by
      rw [CollisionMap.set_tile_in_bounds]
      exact hx
    rw [ih _ hinv' hL' hx']
    have hp := hL p (List.mem_cons_self p rest)
    by_cases hmem : (x, y) ∈ rest
    · simp [hmem, List.mem_cons]
    · by_cases hpe : p.1 = x ∧ p.2 = y
      · have hpxy : p = (x, y) := by
          rcases hpe with ⟨h1, h2⟩
          cases p
          simp_all
        rw [tileAt_set_tile hinv hp hx, if_pos hpe]
        simp [hpxy, List.mem_cons, hmem]
      · have hnot : (x, y) ∉ p :: rest := by
          intro hc
          rcases List.mem_cons.mp hc with hc1 | hc2
          · exact hpe (by cases p; simp_all)
          · exact hmem hc2
        rw [tileAt_set_tile hinv hp hx, if_neg hpe, if_neg hnot,
          if_neg hmem]

theorem mem_shoresToCreate {m : CollisionMap} {x y : ℤ} :
    (x, y) ∈ shoresToCreate m ↔
      (0 ≤ x ∧ x < m.width ∧ 0 ≤ y ∧ y < m.height)
      ∧ m.tileAt x y = TileType.Water
      ∧ ∃ p ∈ waterNeighbors x y,
          m.in_bounds p.1 p.2 = true ∧ (m.tileAt p.1 p.2).is_walkable = true := by
  unfold shoresToCreate
  simp only [List.mem_flatMap, List.mem_map, List.mem_filter, mem_intRange,
    Bool.and_eq_true, decide_eq_true_eq, List.any_eq_true, Prod.mk.injEq]
  constructor
  · rintro ⟨y', ⟨hy0, hy1⟩, x', ⟨⟨hx0, hx1⟩, hwater, p, hp, hb, hw⟩, hxx, hyy⟩
    subst hxx
    subst hyy
    exact ⟨⟨hx0, by omega, hy0, by omega⟩, hwater, p, hp, hb, hw⟩
  · rintro ⟨⟨hx0, hx1, hy0, hy1⟩, hwater, p, hp, hb, hw⟩
    exact ⟨y, ⟨hy0, by omega⟩, x, ⟨⟨hx0, by omega⟩, hwater, p, hp, hb, hw⟩,
      rfl, rfl⟩

/-- **C4**: in the shoreline pass, every in-bounds `Water` cell with at least
one in-bounds walkable 8-neighbor (evaluated on the pre-pass grid, since the
pass collects all positions before mutating) is reclassified `Shore`, and
every `Water` cell whose in-bounds 8-neighbors are all `Water`/`Tree`/`Rock`
remains `Water`. -/
theorem C4_shoreline_pass (m : CollisionMap) (x y : ℤ)
    (hinv : m.tiles.length = (m.width * m.height).toNat)
    (hin : m.in_bounds x y = true) :
    (m.tileAt x y = TileType.Water →
      (∃ p ∈ waterNeighbors x y,
          m.in_bounds p.1 p.2 = true ∧ (m.tileAt p.1 p.2).is_walkable = true) →
      (convert_water_edges_to_shore m).tileAt x y = TileType.Shore)
    ∧ (m.tileAt x y = TileType.Water →
      (∀ p ∈ waterNeighbors x y, m.in_bounds p.1 p.2 = true →
        m.tileAt p.1 p.2 = TileType.Water ∨ m.tileAt p.1 p.2 = TileType.Tree
          ∨ m.tileAt p.1 p.2 = TileType.Rock) →
      (convert_water_edges_to_shore m).tileAt x y = TileType.Water) := by
  have hL : ∀ p ∈ shoresToCreate m, m.in_bounds p.1 p.2 = true := by
    intro p hp
    rcases p with ⟨px, py⟩
    rcases mem_shoresToCreate.mp hp with ⟨hb, _⟩
    exact CollisionMap.in_bounds_iff.mpr hb
  have hfold := tileAt_foldl_set_shore (shoresToCreate m) m x y hinv hL hin
  unfold convert_water_edges_to_shore
  constructor
  · intro hwater hex
    rw [hfold, if_pos (mem_shoresToCreate.mpr
      ⟨CollisionMap.in_bounds_iff.mp hin, hwater, hex⟩)]
  · intro hwater hall
    have hnot : (x, y) ∉ shoresToCreate m := by
      intro hmem
      rcases mem_shoresToCreate.mp hmem with ⟨_, _, p, hp, hb, hw⟩
      rcases hall p hp hb with h | h | h <;>
        rw [h] at hw <;> simp [TileType.is_walkable] at hw
    rw [hfold, if_neg hnot]
    exact hwater

/-- A 4×1 strip `[Water, Water, Water, Grass]`: the `Water` cell next to the
`Grass` becomes `Shore`, the `Water` cell surrounded only by `Water` stays. -/
def shoreFixture : CollisionMap :=
  { tiles := [TileType.Water, TileType.Water, TileType.Water, TileType.Grass]
    width := 4, height := 1, tile_size := 64
    grid_origin_x := 0, grid_origin_y := 0 }

theorem C4_witness :
    (shoreFixture.tiles.length
        = (shoreFixture.width * shoreFixture.height).toNat
      ∧ shoreFixture.in_bounds 2 0 = true
      ∧ shoreFixture.tileAt 2 0 = TileType.Water
      ∧ shoreFixture.in_bounds 0 0 = true
      ∧ shoreFixture.tileAt 0 0 = TileType.Water)
    ∧ (convert_water_edges_to_shore shoreFixture).tileAt 2 0 = TileType.Shore
    ∧ (convert_water_edges_to_shore shoreFixture).tileAt 0 0
        = TileType.Water := by
  refine ⟨⟨by decide, by decide, by decide, by decide, by decide⟩, ?_, ?_⟩
  · exact (C4_shoreline_pass shoreFixture 2 0 (by decide) (by decide)).1
      (by decide) ⟨(3, 0), by decide, by decide, by decide⟩
  · exact (C4_shoreline_pass shoreFixture 0 0 (by decide) (by decide)).2
      (by decide) (by decide)

/-! ## Claim C10: the resolver never ends on a newly reached blocked position -/

theorem moveLoop_returns_start_or_clear (m : CollisionMap) (r : ℚ)
    (sv : Vec2) : ∀ (n : ℕ) (p : Vec2),
    CollisionMap.moveLoop m r sv n p = p
    ∨ m.is_world_pos_clear_circle (CollisionMap.moveLoop m r sv n p) r
        = true := by
  intro n
  induction n with
  | zero =>
    intro p
    left
    rfl
  | succ k ih =>
    intro p
    by_cases h1 : m.is_world_pos_clear_circle (p + sv) r = true
    · have hstep : CollisionMap.moveLoop m r sv (k + 1) p
          = CollisionMap.moveLoop m r sv k (p + sv) := by
        simp only [CollisionMap.moveLoop, h1, if_true]
      rw [hstep]
      rcases ih (p + sv) with h | h
      · right
        rw [h]
        exact h1
      · right
        exact h
    · by_cases h2 : m.is_world_pos_clear_circle ⟨(p + sv).x, p.y⟩ r = true
      · have hstep : CollisionMap.moveLoop m r sv (k + 1) p
            = CollisionMap.moveLoop m r sv k ⟨(p + sv).x, p.y⟩ := by
          simp only [CollisionMap.moveLoop, h1, h2, Bool.false_eq_true, if_true, if_false]
        rw [hstep]
        rcases ih ⟨(p + sv).x, p.y⟩ with h | h
        · right
          rw [h]
          exact h2
        · right
          exact h
      · by_cases h3 : m.is_world_pos_clear_circle ⟨p.x, (p + sv).y⟩ r = true
        · have hstep : CollisionMap.moveLoop m r sv (k + 1) p
              = CollisionMap.moveLoop m r sv k ⟨p.x, (p + sv).y⟩ := by
            simp only [CollisionMap.moveLoop, h1, h2, h3, Bool.false_eq_true, if_true, if_false]
          rw [hstep]
          rcases ih ⟨p.x, (p + sv).y⟩ with h | h
          · right
            rw [h]
            exact h3
          · right
            exact h
        · left
          simp only [CollisionMap.moveLoop, h1, h2, h3, Bool.false_eq_true, if_false]

/-- **C10**: for every grid, start, desired end, and radius, `try_move_circle`
either returns `start` unchanged or returns a position that itself passes the
circle-clearance test: every adopted sub-step candidate (full step, X-slide,
Y-slide) was checked clear before being adopted. -/
theorem C10_resolver_returns_start_or_clear (m : CollisionMap)
    (start desired_end : Vec2) (r : ℚ) :
    m.try_move_circle start desired_end r = start
    ∨ m.is_world_pos_clear_circle (m.try_move_circle start desired_end r) r
        = true := by
  unfold CollisionMap.try_move_circle
  by_cases h : (desired_end - start).normSq < 0.000001
  · rw [if_pos h]
    left
    rfl
  · rw [if_neg h]
    exact moveLoop_returns_start_or_clear m r _ _ start


/-! ## Claim C1: sweep non-tunneling across a blocking column -/

/-- A position whose circle query is clear never has its x coordinate inside
the world-space span of a grid column that is blocking at every in-bounds
row: the scan always contains the center cell, whose covering tile would
register a zero-distance intersection, and the degenerate point query hits
the same cell directly. -/
theorem clear_not_in_wall_column (m : CollisionMap) (p : Vec2) (r : ℚ)
    (w : ℤ) (hT : 0 < m.tile_size)
    (hwall : ∀ gy : ℤ, m.in_bounds w gy = true →
      (m.tileAt w gy).is_walkable = false)
    (hclear : m.is_world_pos_clear_circle p r = true) :
    p.x < m.grid_origin_x + w * m.tile_size
    ∨ m.grid_origin_x + (w + 1) * m.tile_size ≤ p.x := by
  by_contra hcon
  push_neg at hcon
  obtain ⟨hge, hlt⟩ := hcon
  have hcgx : ((p.x - m.grid_origin_x) / m.tile_size).floor = w := by
    rw [ratFloor_eq]
    apply Int.floor_eq_iff.mpr
    constructor
    · exact (le_div_iff₀ hT).mpr (by linarith)
    · exact (div_lt_iff₀ hT).mpr (by linarith)
  set cgy := ((p.y - m.grid_origin_y) / m.tile_size).floor with hcgy_def
  have hcy1 : (cgy : ℚ) * m.tile_size ≤ p.y - m.grid_origin_y := by
    rw [hcgy_def, ratFloor_eq]
    calc (⌊(p.y - m.grid_origin_y) / m.tile_size⌋ : ℚ) * m.tile_size
        ≤ ((p.y - m.grid_origin_y) / m.tile_size) * m.tile_size :=
          mul_le_mul_of_nonneg_right
            (Int.floor_le ((p.y - m.grid_origin_y) / m.tile_size))
            (le_of_lt hT)
      _ = p.y - m.grid_origin_y := div_mul_cancel₀ _ (ne_of_gt hT)
  have hcy2 : p.y - m.grid_origin_y < ((cgy : ℚ) + 1) * m.tile_size := by
    rw [hcgy_def, ratFloor_eq]
    calc p.y - m.grid_origin_y
        = ((p.y - m.grid_origin_y) / m.tile_size) * m.tile_size :=
          (div_mul_cancel₀ _ (ne_of_gt hT)).symm
      _ < ((⌊(p.y - m.grid_origin_y) / m.tile_size⌋ : ℚ) + 1) * m.tile_size :=
          mul_lt_mul_of_pos_right
            (Int.lt_floor_add_one ((p.y - m.grid_origin_y) / m.tile_size)) hT
  unfold CollisionMap.is_world_pos_clear_circle at hclear
  by_cases hwb : m.is_world_pos_within_bounds p r = true
  swap
  · rw [if_pos (by simp [Bool.eq_false_iff.mpr hwb])] at hclear
    exact absurd hclear (by simp)
  rw [if_neg (by simp [hwb])] at hclear
  by_cases hr : r ≤ 0
  · rw [if_pos hr] at hclear
    simp only [CollisionMap.is_world_pos_walkable, CollisionMap.world_to_grid,
      CollisionMap.is_walkable] at hclear
    rw [hcgx, ← hcgy_def] at hclear
    by_cases hib : m.in_bounds w cgy = true
    · rw [if_pos hib, hwall cgy hib] at hclear
      exact absurd hclear (by simp)
    · rw [if_neg hib] at hclear
      exact absurd hclear (by simp)
  · rw [if_neg hr] at hclear
    rw [not_le] at hr
    simp only [List.all_eq_true] at hclear
    have hmemy : cgy ∈ intRange
        ((p.y - r - m.grid_origin_y) / m.tile_size).floor
        ((p.y + r - m.grid_origin_y) / m.tile_size).floor := by
      rw [mem_intRange, hcgy_def, ratFloor_eq, ratFloor_eq, ratFloor_eq]
      constructor
      · exact Int.floor_le_floor ((div_le_div_iff_of_pos_right hT).mpr (by linarith))
      · exact Int.floor_le_floor ((div_le_div_iff_of_pos_right hT).mpr (by linarith))
    have hmemx : w ∈ intRange
        ((p.x - r - m.grid_origin_x) / m.tile_size).floor
        ((p.x + r - m.grid_origin_x) / m.tile_size).floor := by
      rw [mem_intRange, ← hcgx, ratFloor_eq, ratFloor_eq, ratFloor_eq]
      constructor
      · exact Int.floor_le_floor ((div_le_div_iff_of_pos_right hT).mpr (by linarith))
      · exact Int.floor_le_floor ((div_le_div_iff_of_pos_right hT).mpr (by linarith))
    have hbody := hclear cgy hmemy
    simp only [List.all_eq_true] at hbody
    have hbody2 := hbody w hmemx
    by_cases hib : m.in_bounds w cgy = true
    swap
    · rw [if_pos (by simp [Bool.eq_false_iff.mpr hib])] at hbody2
      exact absurd hbody2 (by simp)
    rw [if_neg (by simp [hib])] at hbody2
    have hgt : m.get_tile w cgy = some (m.tileAt w cgy) := by
      unfold CollisionMap.get_tile
      rw [if_pos hib]
    rw [hgt] at hbody2
    simp only [hwall cgy hib, Bool.false_eq_true, not_false_iff, if_true]
      at hbody2
    have hint : m.circle_intersects_tile p
        (CollisionMap.effective_radius (m.tileAt w cgy) r m.tile_size) w cgy
        = true := by
      simp only [CollisionMap.circle_intersects_tile, CollisionMap.clampQ,
        decide_eq_true_eq]
      rw [max_eq_left (by linarith), min_eq_left (by linarith),
        max_eq_left (by linarith), min_eq_left (by linarith)]
      have h0 : (p.x - p.x) * (p.x - p.x) + (p.y - p.y) * (p.y - p.y)
          = 0 := by ring
      rw [h0]
      exact mul_self_nonneg _
    rw [hint] at hbody2
    exact absurd hbody2 (by simp)

/-- Every accepted sub-step moves x by at most a quarter cell and lands on a
clear position, so a walk that starts strictly left of a fully blocking
column can never reach or pass it. -/
theorem moveLoop_stays_left_of_wall (m : CollisionMap) (r : ℚ) (sv : Vec2)
    (w : ℤ) (hT : 0 < m.tile_size)
    (hwall : ∀ gy : ℤ, m.in_bounds w gy = true →
      (m.tileAt w gy).is_walkable = false)
    (hsv : sv.x * sv.x ≤ (m.tile_size * 0.25) * (m.tile_size * 0.25)) :
    ∀ (n : ℕ) (p : Vec2), p.x < m.grid_origin_x + w * m.tile_size →
      (CollisionMap.moveLoop m r sv n p).x
        < m.grid_origin_x + w * m.tile_size := by
  have hsvx : sv.x ≤ m.tile_size * 0.25 := by
    nlinarith [mul_self_nonneg (sv.x - m.tile_size * 0.25), hT]
  have hquarter : m.tile_size * 0.25 < m.tile_size := by linarith
  intro n
  induction n with
  | zero =>
    intro p hp
    exact hp
  | succ k ih =>
    intro p hp
    have hxbound : ∀ q : Vec2, q.x = p.x + sv.x →
        m.is_world_pos_clear_circle q r = true →
        q.x < m.grid_origin_x + w * m.tile_size := by
      intro q hqx hqclear
      rcases clear_not_in_wall_column m q r w hT hwall hqclear with h | h
      · exact h
      · exfalso
        have : q.x < m.grid_origin_x + (w + 1) * m.tile_size := by
          rw [hqx]
          linarith
        linarith
    by_cases h1 : m.is_world_pos_clear_circle (p + sv) r = true
    · have hstep : CollisionMap.moveLoop m r sv (k + 1) p
          = CollisionMap.moveLoop m r sv k (p + sv) := by
        simp only [CollisionMap.moveLoop, h1, if_true]
      rw [hstep]
      exact ih (p + sv) (hxbound (p + sv) rfl h1)
    · by_cases h2 : m.is_world_pos_clear_circle ⟨(p + sv).x, p.y⟩ r = true
      · have hstep : CollisionMap.moveLoop m r sv (k + 1) p
            = CollisionMap.moveLoop m r sv k ⟨(p + sv).x, p.y⟩ := by
          simp only [CollisionMap.moveLoop, h1, h2, Bool.false_eq_true,
            if_true, if_false]
        rw [hstep]
        exact ih _ (hxbound ⟨(p + sv).x, p.y⟩ rfl h2)
      · by_cases h3 : m.is_world_pos_clear_circle ⟨p.x, (p + sv).y⟩ r = true
        · have hstep : CollisionMap.moveLoop m r sv (k + 1) p
              = CollisionMap.moveLoop m r sv k ⟨p.x, (p + sv).y⟩ := by
            simp only [CollisionMap.moveLoop, h1, h2, h3, Bool.false_eq_true,
              if_true, if_false]
          rw [hstep]
          exact ih _ hp
        · have hstep : CollisionMap.moveLoop m r sv (k + 1) p = p := by
            simp only [CollisionMap.moveLoop, h1, h2, h3, Bool.false_eq_true,
              if_false]
          rw [hstep]
          exact hp

/-- **C1**: whenever grid column `w` is blocking at every in-bounds row and
the desired move starts strictly left of the column's world-space span and
ends strictly right of it, the resolved position of `try_move_circle` stays
strictly left of the column: the sweep never tunnels to the far side of a
1-cell-wide wall. -/
theorem C1_sweep_non_tunneling (m : CollisionMap) (start desired_end : Vec2)
    (r : ℚ) (w : ℤ) (hT : 0 < m.tile_size)
    (hwall : ∀ gy : ℤ, m.in_bounds w gy = true →
      (m.tileAt w gy).is_walkable = false)
    (hstart : start.x < m.grid_origin_x + w * m.tile_size)
    (_hcross : m.grid_origin_x + (w + 1) * m.tile_size < desired_end.x) :
    (m.try_move_circle start desired_end r).x
      < m.grid_origin_x + w * m.tile_size := by
  unfold CollisionMap.try_move_circle
  by_cases h : (desired_end - start).normSq < 0.000001
  · rw [if_pos h]
    exact hstart
  · rw [if_neg h]
    set delta := desired_end - start with hdelta
    set steps := m.stepCount delta with hsteps
    have hs1 : 1 ≤ steps := le_max_left 1 _
    have hs0 : (0 : ℚ) < (steps : ℚ) := by exact_mod_cast hs1
    have hms : (0 : ℚ) < m.tile_size * 0.25 := by linarith
    have hL2 : delta.normSq
        ≤ ((steps : ℚ) * steps) * ((m.tile_size * 0.25) * (m.tile_size * 0.25)) := by
      set ms := m.tile_size * 0.25 with hms_def
      set q := delta.normSq / (ms * ms) with hq_def
      have hq0 : 0 ≤ q := by
        apply div_nonneg
        · unfold Vec2.normSq
          nlinarith [mul_self_nonneg delta.x, mul_self_nonneg delta.y]
        · exact mul_self_nonneg ms
      have hceil0 : 0 ≤ q.ceil := by
        rw [ratCeil_eq]
        exact Int.ceil_nonneg hq0
      have hk : q ≤ (q.ceil.toNat : ℚ) := by
        have h1 : ((q.ceil.toNat : ℤ) : ℚ) = (q.ceil : ℚ) := by
          have h1z := Int.toNat_of_nonneg hceil0
          exact_mod_cast h1z
        have h2 : q ≤ (q.ceil : ℚ) := by
          rw [ratCeil_eq]
          exact Int.le_ceil q
        calc q ≤ (q.ceil : ℚ) := h2
          _ = ((q.ceil.toNat : ℤ) : ℚ) := h1.symm
          _ = (q.ceil.toNat : ℚ) := by push_cast; rfl
      have hks : q.ceil.toNat ≤ steps * steps := by
        have hcs : natCeilSqrt q.ceil.toNat ≤ steps := le_max_right 1 _
        calc q.ceil.toNat
            ≤ natCeilSqrt q.ceil.toNat * natCeilSqrt q.ceil.toNat :=
              natCeilSqrt_sq_ge _
          _ ≤ steps * steps := Nat.mul_le_mul hcs hcs
      have hqs : q ≤ (steps : ℚ) * steps := by
        calc q ≤ (q.ceil.toNat : ℚ) := hk
          _ ≤ ((steps * steps : ℕ) : ℚ) := by exact_mod_cast hks
          _ = (steps : ℚ) * steps := by push_cast; rfl
      have hmm : 0 < ms * ms := mul_pos hms hms
      calc delta.normSq = q * (ms * ms) := by
            rw [hq_def]
            field_simp
        _ ≤ ((steps : ℚ) * steps) * (ms * ms) :=
            mul_le_mul_of_nonneg_right hqs (le_of_lt hmm)
    have hdx2 : delta.x * delta.x ≤ delta.normSq := by
      unfold Vec2.normSq
      nlinarith [mul_self_nonneg delta.y]
    have hsv : (delta.x / (steps : ℚ)) * (delta.x / (steps : ℚ))
        ≤ (m.tile_size * 0.25) * (m.tile_size * 0.25) := by
      rw [div_mul_div_comm]
      rw [div_le_iff₀ (by positivity)]
      nlinarith [hdx2, hL2]
    exact moveLoop_stays_left_of_wall m r
      ⟨delta.x / (steps : ℚ), delta.y / (steps : ℚ)⟩ w hT hwall hsv
      steps start hstart

/-- A 3×1 strip `[Grass, Water, Grass]`: column 1 is a full-height 1-cell
wall spanning world x in [64, 128). -/
def wallFixture : CollisionMap :=
  { tiles := [TileType.Grass, TileType.Water, TileType.Grass]
    width := 3, height := 1, tile_size := 64
    grid_origin_x := 0, grid_origin_y := 0 }

theorem C1_witness :
    ((0 : ℚ) < wallFixture.tile_size
      ∧ (32 : ℚ) < wallFixture.grid_origin_x + 1 * wallFixture.tile_size
      ∧ wallFixture.grid_origin_x + (1 + 1) * wallFixture.tile_size
          < (160 : ℚ))
    ∧ (wallFixture.try_move_circle ⟨32, 32⟩ ⟨160, 32⟩ 10).x
        < wallFixture.grid_origin_x + 1 * wallFixture.tile_size := by
  refine ⟨⟨by norm_num [wallFixture], by norm_num [wallFixture],
    by norm_num [wallFixture]⟩, ?_⟩
  have h := C1_sweep_non_tunneling wallFixture ⟨32, 32⟩ ⟨160, 32⟩ 10 1
    (by norm_num [wallFixture])
    (fun gy hgy => by
      have hb := CollisionMap.in_bounds_iff.mp hgy
      have hg0 : gy = 0 := by
        simp [wallFixture] at hb
        omega
      subst hg0
      decide)
    (by norm_num [wallFixture])
    (by norm_num [wallFixture])
  simpa using h

/-! ## Claim C5: layer precedence and order independence of the reduction -/

/-- The effect of one tracker step on the value stored at a single key (the
key the observation maps to). -/
def trackerScalarStep (v : Option (TileType × ℚ)) (o : TileObservation) :
    Option (TileType × ℚ) :=
  match v with
  | some tz => if o.wz ≤ tz.2 then some tz else some (o.tile, o.wz)
  | none => some (o.tile, o.wz)

theorem trackerStep_apply_eq (T ox oy : ℚ)
    (acc : ℤ × ℤ → Option (TileType × ℚ)) (o : TileObservation) (k : ℤ × ℤ) :
    trackerStep T ox oy acc o k
      = if obsGrid T ox oy o = k then trackerScalarStep (acc k) o
        else acc k := by
  unfold trackerStep trackerScalarStep trackerInsert
  by_cases hk : obsGrid T ox oy o = k
  · rw [if_pos hk, hk]
    rcases hacc : acc k with _ | ⟨t0, z0⟩
    · simp
    · by_cases hz : o.wz ≤ z0
      · simp [hacc, hz]
      · simp [hacc, hz]
  · rw [if_neg hk]
    rcases hacc : acc (obsGrid T ox oy o) with _ | ⟨t0, z0⟩
    · simp [Ne.symm hk]
    · by_cases hz : o.wz ≤ z0
      · simp [hacc, hz]
      · simp [hacc, hz, Ne.symm hk]

theorem tracker_foldl_apply (T ox oy : ℚ) (obs : List TileObservation)
    (acc : ℤ × ℤ → Option (TileType × ℚ)) (k : ℤ × ℤ) :
    (obs.foldl (trackerStep T ox oy) acc) k
      = (obs.filter (fun o => decide (obsGrid T ox oy o = k))).foldl
          trackerScalarStep (acc k) := by
  induction obs generalizing acc with
  | nil => rfl
  | cons o rest ih =>
    simp only [List.foldl_cons, List.filter_cons]
    by_cases hk : obsGrid T ox oy o = k
    · rw [if_pos (by simp [hk])]
      rw [ih]
      simp only [List.foldl_cons]
      rw [trackerStep_apply_eq, if_pos hk]
    · rw [if_neg (by simp [hk])]
      rw [ih]
      rw [trackerStep_apply_eq, if_neg hk]

theorem scalar_fold_keep (cs : List TileObservation) (t0 : TileType) (z0 : ℚ)
    (hall : ∀ c ∈ cs, c.wz ≤ z0) :
    cs.foldl trackerScalarStep (some (t0, z0)) = some (t0, z0) := by
  induction cs with
  | nil => rfl
  | cons c rest ih =>
    simp only [List.foldl_cons]
    have hc : c.wz ≤ z0 := hall c (List.mem_cons_self c rest)
    have hstep : trackerScalarStep (some (t0, z0)) c = some (t0, z0) := by
      unfold trackerScalarStep
      simp [hc]
    rw [hstep]
    exact ih fun c hc' => hall c (List.mem_cons_of_mem _ hc')

theorem scalar_fold_max (cs : List TileObservation) (o : TileObservation) :
    o ∈ cs → (∀ c ∈ cs, c.wz ≤ o.wz) →
    (∀ c ∈ cs, c.wz = o.wz → c = o) →
    ∀ v : Option (TileType × ℚ),
      (∀ t0 z0, v = some (t0, z0) → z0 < o.wz) →
      cs.foldl trackerScalarStep v = some (o.tile, o.wz) := by
  induction cs with
  | nil =>
    intro ho
    exact absurd ho (List.not_mem_nil o)
  | cons c rest ih =>
    intro ho hmax huniq v hv
    simp only [List.foldl_cons]
    by_cases hco : c = o
    · subst hco
      have hstep : trackerScalarStep v c = some (c.tile, c.wz) := by
        unfold trackerScalarStep
        rcases hvv : v with _ | ⟨t0, z0⟩
        · rfl
        · have := hv t0 z0 hvv
          simp [not_le.mpr this]
      rw [hstep]
      exact scalar_fold_keep rest c.tile c.wz
        fun q hq => hmax q (List.mem_cons_of_mem _ hq)
    · have hcz : c.wz < o.wz := by
        rcases lt_or_eq_of_le (hmax c (List.mem_cons_self c rest)) with h | h
        · exact h
        · exact absurd (huniq c (List.mem_cons_self c rest) h) hco
      have horest : o ∈ rest := by
        rcases List.mem_cons.mp ho with h | h
        · exact absurd h.symm hco
        · exact h
      apply ih horest
        (fun q hq => hmax q (List.mem_cons_of_mem _ hq))
        (fun q hq hqz => huniq q (List.mem_cons_of_mem _ hq) hqz)
      intro t0 z0 hvv
      rcases hv0 : v with _ | ⟨t1, z1⟩
      · rw [hv0] at hvv
        simp only [trackerScalarStep, Option.some.injEq, Prod.mk.injEq] at hvv
        rw [← hvv.2]
        exact hcz
      · rw [hv0] at hvv
        simp only [trackerScalarStep] at hvv
        by_cases hcw : c.wz ≤ z1
        · rw [if_pos hcw] at hvv
          simp only [Option.some.injEq, Prod.mk.injEq] at hvv
          rw [← hvv.2]
          exact hv t1 z1 hv0
        · rw [if_neg hcw] at hvv
          simp only [Option.some.injEq, Prod.mk.injEq] at hvv
          rw [← hvv.2]
          exact hcz

theorem layer_tracker_eq_max (T ox oy : ℚ) (obs : List TileObservation)
    (o : TileObservation)
    (hpair : obs.Pairwise (fun a b =>
      obsGrid T ox oy a = obsGrid T ox oy b → a.wz ≠ b.wz))
    (ho : o ∈ obs)
    (hmax : ∀ o' ∈ obs, obsGrid T ox oy o' = obsGrid T ox oy o →
      o'.wz ≤ o.wz) :
    layer_tracker T ox oy obs (obsGrid T ox oy o) = some (o.tile, o.wz) := by
  unfold layer_tracker
  rw [tracker_foldl_apply]
  have hsym : Symmetric (fun a b : TileObservation =>
      obsGrid T ox oy a = obsGrid T ox oy b → a.wz ≠ b.wz) := by
    intro a b hab hba
    exact fun hz => (hab hba.symm) hz.symm
  apply scalar_fold_max
  · exact List.mem_filter.mpr ⟨ho, by simp⟩
  · intro c hc
    rcases List.mem_filter.mp hc with ⟨hcm, hck⟩
    exact hmax c hcm (by simpa using hck)
  · intro c hc hcz
    rcases List.mem_filter.mp hc with ⟨hcm, hck⟩
    by_contra hne
    exact (hpair.forall hsym hcm ho hne) (by simpa using hck) hcz
  · intro t0 z0 h0
    exact absurd h0 (by simp)

theorem foldl_min_le_init : ∀ (r : List ℤ) (a : ℤ), r.foldl min a ≤ a := by
  intro r
  induction r with
  | nil => intro a; exact le_refl a
  | cons b rest ih =>
    intro a
    calc rest.foldl min (min a b) ≤ min a b := ih (min a b)
      _ ≤ a := min_le_left a b

theorem foldl_min_le_mem : ∀ (r : List ℤ) (a x : ℤ), x ∈ r →
    r.foldl min a ≤ x := by
  intro r
  induction r with
  | nil =>
    intro a x hx
    exact absurd hx (List.not_mem_nil x)
  | cons b rest ih =>
    intro a x hx
    rcases List.mem_cons.mp hx with rfl | hx'
    · calc rest.foldl min (min a x) ≤ min a x := foldl_min_le_init rest _
        _ ≤ x := min_le_right a x
    · exact ih (min a b) x hx'

theorem init_le_foldl_max : ∀ (r : List ℤ) (a : ℤ), a ≤ r.foldl max a := by
  intro r
  induction r with
  | nil => intro a; exact le_refl a
  | cons b rest ih =>
    intro a
    calc a ≤ max a b := le_max_left a b
      _ ≤ rest.foldl max (max a b) := ih (max a b)

theorem mem_le_foldl_max : ∀ (r : List ℤ) (a x : ℤ), x ∈ r →
    x ≤ r.foldl max a := by
  intro r
  induction r with
  | nil =>
    intro a x hx
    exact absurd hx (List.not_mem_nil x)
  | cons b rest ih =>
    intro a x hx
    rcases List.mem_cons.mp hx with rfl | hx'
    · calc x ≤ max a x := le_max_right a x
        _ ≤ rest.foldl max (max a x) := init_le_foldl_max rest _
    · exact ih (max a b) x hx'

theorem minList_le {l : List ℤ} {x : ℤ} (hx : x ∈ l) : minList l ≤ x := by
  rcases l with _ | ⟨a, r⟩
  · exact absurd hx (List.not_mem_nil x)
  · unfold minList
    rcases List.mem_cons.mp hx with rfl | hx'
    · exact foldl_min_le_init r x
    · exact foldl_min_le_mem r a x hx'

theorem le_maxList {l : List ℤ} {x : ℤ} (hx : x ∈ l) : x ≤ maxList l := by
  rcases l with _ | ⟨a, r⟩
  · exact absurd hx (List.not_mem_nil x)
  · unfold maxList
    rcases List.mem_cons.mp hx with rfl | hx'
    · exact init_le_foldl_max r x
    · exact mem_le_foldl_max r a x hx'

theorem getD_range_map {N : ℕ} (f : ℕ → TileType) (i : ℕ) (hi : i < N) :
    ((List.range N).map f).getD i TileType.Empty = f i := by
  rw [List.getD_eq_getElem?_getD, List.getElem?_map, List.getElem?_range hi]
  rfl

theorem flattenedGrid_tileAt (T ox oy : ℚ) (obs : List TileObservation)
    {lx ly : ℤ}
    (hin : (flattenedGrid T ox oy obs).in_bounds lx ly = true) :
    (flattenedGrid T ox oy obs).tileAt lx ly
      = (Option.map Prod.fst (layer_tracker T ox oy obs
          (minList (obsGxs T ox oy obs) + lx,
           minList (obsGys T ox oy obs) + ly))).getD TileType.Empty := by
  rcases CollisionMap.in_bounds_iff.mp hin with ⟨hx0, hxw, hy0, hyh⟩
  have hinv : (flattenedGrid T ox oy obs).tiles.length
      = ((flattenedGrid T ox oy obs).width
        * (flattenedGrid T ox oy obs).height).toNat := by
    simp [flattenedGrid]
  have hlt := CollisionMap.xy_idx_lt_of_in_bounds hinv hin
  have htiles : (flattenedGrid T ox oy obs).tiles
      = (List.range (((flattenedGrid T ox oy obs).width
          * (flattenedGrid T ox oy obs).height).toNat)).map (fun i =>
        match layer_tracker T ox oy obs
            (minList (obsGxs T ox oy obs)
              + ((i % (flattenedGrid T ox oy obs).width.toNat : ℕ) : ℤ),
             minList (obsGys T ox oy obs)
              + ((i / (flattenedGrid T ox oy obs).width.toNat : ℕ) : ℤ)) with
        | some tz => tz.1
        | none => TileType.Empty) := rfl
  have hW : lx.toNat < (flattenedGrid T ox oy obs).width.toNat := by omega
  have hmod : (flattenedGrid T ox oy obs).xy_idx lx ly
      % (flattenedGrid T ox oy obs).width.toNat = lx.toNat := by
    unfold CollisionMap.xy_idx
    rw [Nat.mul_comm, Nat.mul_add_mod]
    exact Nat.mod_eq_of_lt hW
  have hdiv : (flattenedGrid T ox oy obs).xy_idx lx ly
      / (flattenedGrid T ox oy obs).width.toNat = ly.toNat := by
    unfold CollisionMap.xy_idx
    rw [Nat.mul_comm, Nat.mul_add_div (by omega)]
    rw [Nat.div_eq_of_lt hW]
    omega
  unfold CollisionMap.tileAt
  rw [htiles, getD_range_map _ _ (hinv ▸ hlt), hmod, hdiv,
    Int.toNat_of_nonneg hx0, Int.toNat_of_nonneg hy0]
  rcases layer_tracker T ox oy obs
      (minList (obsGxs T ox oy obs) + lx, minList (obsGys T ox oy obs) + ly)
    with _ | tz <;> rfl

theorem trackerScalarStep_comm {a b : TileObservation} (hz : a.wz ≠ b.wz)
    (v : Option (TileType × ℚ)) :
    trackerScalarStep (trackerScalarStep v a) b
      = trackerScalarStep (trackerScalarStep v b) a := by
  rcases v with _ | ⟨t0, z0⟩
  · simp only [trackerScalarStep]
    split_ifs with h1 h2 h3
    · exfalso
      apply hz
      linarith
    · rfl
    · rfl
    · exfalso
      linarith
  · by_cases haz : a.wz ≤ z0 <;> by_cases hbz : b.wz ≤ z0
    · simp only [trackerScalarStep, if_pos haz, if_pos hbz]
    · have hab : a.wz ≤ b.wz := by linarith [not_le.mp hbz]
      simp only [trackerScalarStep, if_pos haz, if_neg hbz, if_pos hab]
    · have hba : b.wz ≤ a.wz := by linarith [not_le.mp haz]
      simp only [trackerScalarStep, if_neg haz, if_pos hbz, if_pos hba]
    · rcases lt_or_gt_of_ne hz with h | h
      · simp only [trackerScalarStep, if_neg haz, if_neg hbz,
          if_neg (not_le.mpr h), if_pos (le_of_lt h)]
      · simp only [trackerScalarStep, if_neg haz, if_neg hbz,
          if_neg (not_le.mpr h), if_pos (le_of_lt h)]

theorem trackerStep_comm (T ox oy : ℚ) {a b : TileObservation}
    (hab : obsGrid T ox oy a = obsGrid T ox oy b → a.wz ≠ b.wz)
    (acc : ℤ × ℤ → Option (TileType × ℚ)) :
    trackerStep T ox oy (trackerStep T ox oy acc a) b
      = trackerStep T ox oy (trackerStep T ox oy acc b) a := by
  funext k
  rw [trackerStep_apply_eq, trackerStep_apply_eq, trackerStep_apply_eq,
    trackerStep_apply_eq]
  by_cases hak : obsGrid T ox oy a = k <;>
    by_cases hbk : obsGrid T ox oy b = k
  · simp only [if_pos hak, if_pos hbk]
    exact trackerScalarStep_comm (hab (hak.trans hbk.symm)) (acc k)
  · simp only [if_pos hak, if_neg hbk]
  · simp only [if_neg hak, if_pos hbk]
  · simp only [if_neg hak, if_neg hbk]

theorem obsRel_symm (T ox oy : ℚ) :
    Symmetric (fun a b : TileObservation =>
      obsGrid T ox oy a = obsGrid T ox oy b → a.wz ≠ b.wz) := by
  intro a b hab hba
  exact fun hzz => (hab hba.symm) hzz.symm

theorem layer_tracker_perm (T ox oy : ℚ) {obs1 obs2 : List TileObservation}
    (hpair : obs1.Pairwise (fun a b =>
      obsGrid T ox oy a = obsGrid T ox oy b → a.wz ≠ b.wz))
    (hperm : obs1.Perm obs2) :
    layer_tracker T ox oy obs1 = layer_tracker T ox oy obs2 := by
  unfold layer_tracker
  apply hperm.foldl_eq'
  intro x hx y hy z
  by_cases hxy : x = y
  · subst hxy
    rfl
  · exact trackerStep_comm T ox oy
      (hpair.forall (obsRel_symm T ox oy) hx hy hxy) z

theorem foldl_min_mem : ∀ (r : List ℤ) (a : ℤ),
    r.foldl min a = a ∨ r.foldl min a ∈ r := by
  intro r
  induction r with
  | nil =>
    intro a
    left
    rfl
  | cons b rest ih =>
    intro a
    rcases ih (min a b) with h | h
    · rcases min_choice a b with hm | hm
      · left
        rw [List.foldl_cons, h, hm]
      · right
        rw [List.foldl_cons, h, hm]
        exact List.mem_cons_self b rest
    · right
      exact List.mem_cons_of_mem b h

theorem foldl_max_mem : ∀ (r : List ℤ) (a : ℤ),
    r.foldl max a = a ∨ r.foldl max a ∈ r := by
  intro r
  induction r with
  | nil =>
    intro a
    left
    rfl
  | cons b rest ih =>
    intro a
    rcases ih (max a b) with h | h
    · rcases max_choice a b with hm | hm
      · left
        rw [List.foldl_cons, h, hm]
      · right
        rw [List.foldl_cons, h, hm]
        exact List.mem_cons_self b rest
    · right
      exact List.mem_cons_of_mem b h

theorem minList_mem {l : List ℤ} (h : l ≠ []) : minList l ∈ l := by
  rcases l with _ | ⟨a, r⟩
  · exact absurd rfl h
  · show r.foldl min a ∈ a :: r
    rcases foldl_min_mem r a with h1 | h1
    · rw [h1]
      exact List.mem_cons_self a r
    · exact List.mem_cons_of_mem a h1

theorem maxList_mem {l : List ℤ} (h : l ≠ []) : maxList l ∈ l := by
  rcases l with _ | ⟨a, r⟩
  · exact absurd rfl h
  · show r.foldl max a ∈ a :: r
    rcases foldl_max_mem r a with h1 | h1
    · rw [h1]
      exact List.mem_cons_self a r
    · exact List.mem_cons_of_mem a h1

theorem minList_perm {l1 l2 : List ℤ} (h : l1.Perm l2) :
    minList l1 = minList l2 := by
  rcases l1 with _ | ⟨a, r⟩
  · rw [(h.symm).eq_nil]
  · have hne1 : a :: r ≠ [] := by simp
    have hne2 : l2 ≠ [] := by
      intro h2
      subst h2
      exact absurd h.eq_nil (by simp)
    apply le_antisymm
    · exact minList_le (h.mem_iff.mpr (minList_mem hne2))
    · exact minList_le ((h.symm).mem_iff.mpr (minList_mem hne1))

theorem maxList_perm {l1 l2 : List ℤ} (h : l1.Perm l2) :
    maxList l1 = maxList l2 := by
  rcases l1 with _ | ⟨a, r⟩
  · rw [(h.symm).eq_nil]
  · have hne1 : a :: r ≠ [] := by simp
    have hne2 : l2 ≠ [] := by
      intro h2
      subst h2
      exact absurd h.eq_nil (by simp)
    apply le_antisymm
    · exact le_maxList ((h.symm).mem_iff.mpr (maxList_mem hne1))
    · exact le_maxList (h.mem_iff.mpr (maxList_mem hne2))

theorem flattenedGrid_perm (T ox oy : ℚ) {obs1 obs2 : List TileObservation}
    (hpair : obs1.Pairwise (fun a b =>
      obsGrid T ox oy a = obsGrid T ox oy b → a.wz ≠ b.wz))
    (hperm : obs1.Perm obs2) :
    flattenedGrid T ox oy obs1 = flattenedGrid T ox oy obs2 := by
  have htr := layer_tracker_perm T ox oy hpair hperm
  have hgx : (obsGxs T ox oy obs1).Perm (obsGxs T ox oy obs2) := hperm.map _
  have hgy : (obsGys T ox oy obs1).Perm (obsGys T ox oy obs2) := hperm.map _
  unfold flattenedGrid
  rw [htr, minList_perm hgx, maxList_perm hgx, minList_perm hgy,
    maxList_perm hgy]

theorem build_collision_map_perm (T ox oy : ℚ)
    {obs1 obs2 : List TileObservation}
    (hpair : obs1.Pairwise (fun a b =>
      obsGrid T ox oy a = obsGrid T ox oy b → a.wz ≠ b.wz))
    (hperm : obs1.Perm obs2) :
    build_collision_map T ox oy obs1 = build_collision_map T ox oy obs2 := by
  cases h1 : obs1 with
  | nil =>
    subst h1
    have h2 : obs2 = [] := (hperm.symm).eq_nil
    subst h2
    rfl
  | cons o r =>
    subst h1
    cases h2 : obs2 with
    | nil =>
      subst h2
      exact absurd hperm.eq_nil (by simp)
    | cons o2 r2 =>
      subst h2
      show some (convert_water_edges_to_shore (flattenedGrid T ox oy (o :: r)))
        = some (convert_water_edges_to_shore (flattenedGrid T ox oy (o2 :: r2)))
      rw [flattenedGrid_perm T ox oy hpair hperm]

/-- **C5 (amended)**: for every observation set with no exact-z ties per
footprint, the grid *as populated by the layer reduction* (generate.rs lines
152-199, before the shoreline post-pass) holds, at the local cell of each
observation that has the strictly greatest z at its footprint, exactly that
observation's category; and permuting the input list does not change the
built collision map at all (the subsequent shoreline pass is deterministic).
The unamended claim fails on the full build because the shoreline pass can
replace the winning `Water` with `Shore` (see the counterexample). -/
theorem C5_layer_precedence (T ox oy : ℚ) (obs : List TileObservation)
    (o : TileObservation)
    (hpair : obs.Pairwise (fun a b =>
      obsGrid T ox oy a = obsGrid T ox oy b → a.wz ≠ b.wz))
    (ho : o ∈ obs)
    (hmax : ∀ o' ∈ obs, obsGrid T ox oy o' = obsGrid T ox oy o →
      o'.wz ≤ o.wz) :
    (flattenedGrid T ox oy obs).tileAt
        ((obsGrid T ox oy o).1 - minList (obsGxs T ox oy obs))
        ((obsGrid T ox oy o).2 - minList (obsGys T ox oy obs)) = o.tile
    ∧ ∀ obs2 : List TileObservation, obs.Perm obs2 →
        build_collision_map T ox oy obs = build_collision_map T ox oy obs2 := by
  constructor
  · have hgx_mem : (obsGrid T ox oy o).1 ∈ obsGxs T ox oy obs :=
      List.mem_map.mpr ⟨o, ho, rfl⟩
    have hgy_mem : (obsGrid T ox oy o).2 ∈ obsGys T ox oy obs :=
      List.mem_map.mpr ⟨o, ho, rfl⟩
    have h1 := minList_le hgx_mem
    have h2 := le_maxList hgx_mem
    have h3 := minList_le hgy_mem
    have h4 := le_maxList hgy_mem
    have hin : (flattenedGrid T ox oy obs).in_bounds
        ((obsGrid T ox oy o).1 - minList (obsGxs T ox oy obs))
        ((obsGrid T ox oy o).2 - minList (obsGys T ox oy obs)) = true := by
      rw [CollisionMap.in_bounds_iff]
      have hw : (flattenedGrid T ox oy obs).width
          = maxList (obsGxs T ox oy obs) - minList (obsGxs T ox oy obs) + 1 :=
        rfl
      have hh : (flattenedGrid T ox oy obs).height
          = maxList (obsGys T ox oy obs) - minList (obsGys T ox oy obs) + 1 :=
        rfl
      rw [hw, hh]
      omega
    rw [flattenedGrid_tileAt T ox oy obs hin]
    have hkey : (minList (obsGxs T ox oy obs)
          + ((obsGrid T ox oy o).1 - minList (obsGxs T ox oy obs)),
        minList (obsGys T ox oy obs)
          + ((obsGrid T ox oy o).2 - minList (obsGys T ox oy obs)))
        = obsGrid T ox oy o := by
      rw [Prod.mk.injEq]
      constructor <;> ring
    rw [hkey, layer_tracker_eq_max T ox oy obs o hpair ho hmax]
    rfl
  · intro obs2 hperm
    exact build_collision_map_perm T ox oy hpair hperm

/-- Observations refuting the unamended C5 on the full build: at footprint
(0,0) the greatest-z observation is `Water` (z=3 over Dirt z=1), but a
walkable `Grass` neighbor at footprint (1,0) makes the shoreline pass turn
the built cell into `Shore`, not `Water`. -/
def obsCex : List TileObservation :=
  [⟨32, 32, 1, TileType.Dirt⟩, ⟨32, 32, 3, TileType.Water⟩,
   ⟨96, 32, 1, TileType.Grass⟩]

theorem C5_counterexample :
    obsGrid 64 0 0 ⟨32, 32, 3, TileType.Water⟩ = (0, 0)
    ∧ (∀ o ∈ obsCex, obsGrid 64 0 0 o = (0, 0) → o.wz ≤ (3 : ℚ))
    ∧ Option.map (fun mm => mm.tileAt 0 0) (build_collision_map 64 0 0 obsCex)
        = some TileType.Shore
    ∧ Option.map (fun mm => mm.tileAt 0 0) (build_collision_map 64 0 0 obsCex)
        ≠ some TileType.Water := by
  have hval : Option.map (fun mm => mm.tileAt 0 0)
      (build_collision_map 64 0 0 obsCex) = some TileType.Shore := by
    with_unfolding_all rfl
  refine ⟨by with_unfolding_all rfl,
    of_decide_eq_true (by with_unfolding_all rfl), hval, ?_⟩
  rw [hval]
  simp

/-- Two stacked observations at one footprint: Dirt at z=1 under Water at
z=3. -/
def obsPair : List TileObservation :=
  [⟨32, 32, 1, TileType.Dirt⟩, ⟨32, 32, 3, TileType.Water⟩]

theorem C5_witness :
    (flattenedGrid 64 0 0 obsPair).tileAt 0 0 = TileType.Water
    ∧ build_collision_map 64 0 0 obsPair
        = build_collision_map 64 0 0 obsPair.reverse := by
  have h := C5_layer_precedence 64 0 0 obsPair ⟨32, 32, 3, TileType.Water⟩
    (of_decide_eq_true (by with_unfolding_all rfl))
    (List.mem_cons_of_mem _ (List.mem_cons_self _ _))
    (of_decide_eq_true (by with_unfolding_all rfl))
  constructor
  · have e1 : (obsGrid 64 0 0 ⟨32, 32, 3, TileType.Water⟩).1
        - minList (obsGxs 64 0 0 obsPair) = 0 := by with_unfolding_all rfl
    have e2 : (obsGrid 64 0 0 ⟨32, 32, 3, TileType.Water⟩).2
        - minList (obsGys 64 0 0 obsPair) = 0 := by with_unfolding_all rfl
    have h1 := h.1
    rw [e1, e2] at h1
    exact h1
  · exact h.2 obsPair.reverse (List.reverse_perm obsPair).symm

/-! ## Claim C2: spawn search validity -/

/-- A 3×1 strip `[Grass, Water, Grass]` used to refute the unamended spawn
claim: the map is 1 cell tall, so every probed feet position (cell center
shifted down by 38.4) lies below the map and is rejected, yet clear positions
exist inside the `Grass` cells. -/
def spawnFixture : CollisionMap :=
  { tiles := [TileType.Grass, TileType.Water, TileType.Grass]
    width := 3, height := 1, tile_size := 64
    grid_origin_x := 0, grid_origin_y := 0 }

/-- A degenerate random stream: every draw lands in cell (0, 0). -/
def rngZero : ℕ → ℕ × ℕ := fun _ => (0, 0)

theorem C2_counterexample :
    spawnFixture.is_world_pos_clear_circle ⟨32, 32⟩ collider_radius = true
    ∧ find_walkable_spawn_position spawnFixture rngZero = ⟨96, 32⟩
    ∧ spawnFixture.is_world_pos_clear_circle ⟨96, 32⟩ collider_radius = false
    ∧ spawnFixture.is_world_pos_clear_circle (feetOf ⟨96, 32⟩)
        collider_radius = false :=
  ⟨by with_unfolding_all rfl, by with_unfolding_all rfl,
   by with_unfolding_all rfl, by with_unfolding_all rfl⟩

/-- **C2 (amended)**: `find_walkable_spawn_position` returns a position whose
feet circle is clear whenever its center probe or any of its ring/random cell
probes has clear feet; when every probe fails it falls back to the grid-center
position, which need not be clear (see the counterexample, where a clear
position exists in the grid but no probed feet position is clear). -/
theorem C2_spawn_first_clear (m : CollisionMap) (rng : ℕ → ℕ × ℕ)
    (h : m.is_world_pos_clear_circle
        (feetOf (cellCenterWorld m (m.width / 2) (m.height / 2)))
        collider_radius = true
      ∨ ∃ p ∈ spawnRingCandidates m ++ randomCandidates m rng,
          m.is_world_pos_clear_circle (feetOf (cellCenterWorld m p.1 p.2))
            collider_radius = true) :
    m.is_world_pos_clear_circle (feetOf (find_walkable_spawn_position m rng))
      collider_radius = true := by
  unfold find_walkable_spawn_position
  by_cases hc : m.is_world_pos_clear_circle
      (feetOf (cellCenterWorld m (m.width / 2) (m.height / 2)))
      collider_radius = true
  · rw [if_pos hc]
    exact hc
  · rw [if_neg hc]
    rcases h with h | ⟨p, hp, hclear⟩
    · exact absurd h hc
    · rcases hfind : (spawnRingCandidates m ++ randomCandidates m rng).find?
          (fun q => m.is_world_pos_clear_circle
            (feetOf (cellCenterWorld m q.1 q.2)) collider_radius)
        with _ | q
      · exact absurd hclear (List.find?_eq_none.mp hfind p hp)
      · rw [hfind]
        have hq := List.find?_some hfind
        simpa using hq

/-- A fully walkable 3×3 grid: the very first (center) probe is clear. -/
def spawnOpen : CollisionMap :=
  { tiles := List.replicate 9 TileType.Grass
    width := 3, height := 3, tile_size := 64
    grid_origin_x := 0, grid_origin_y := 0 }

theorem C2_witness :
    spawnOpen.is_world_pos_clear_circle
        (feetOf (cellCenterWorld spawnOpen (spawnOpen.width / 2)
          (spawnOpen.height / 2))) collider_radius = true
    ∧ spawnOpen.is_world_pos_clear_circle
        (feetOf (find_walkable_spawn_position spawnOpen rngZero))
        collider_radius = true := by
  have hc : spawnOpen.is_world_pos_clear_circle
      (feetOf (cellCenterWorld spawnOpen (spawnOpen.width / 2)
        (spawnOpen.height / 2))) collider_radius = true := by
    with_unfolding_all rfl
  exact ⟨hc, C2_spawn_first_clear spawnOpen rngZero (Or.inl hc)⟩
